import Mathlib

/-!
Shallow embedding of the Docs+Git backend (`src/main.py`, `src/schemas.py`).

Documents stored in the document store are modelled as ordered association
lists of string keys to JSON-like values (`Doc`), mirroring the Python
dictionaries returned by the store.  Endpoints become pure functions from a
`Store` (the two collections plus an id counter) to a result and a new
`Store`; raised `HTTPException`s become the `Err` error type.  Remote HTTP
interactions of the sync endpoints are modelled by passing the remote
responses as explicit inputs and recording the issued PUT request in the
output.
-/

namespace DocsGit

/-- JSON-like values stored in documents.  `objId` models a BSON ObjectId,
`arr` a list of strings (used for tags), and `lockObj` the lock
sub-document `{locked_by, is_locked}` written by the lock endpoint. -/
inductive Value where
  | null
  | str (s : String)
  | bool (b : Bool)
  | objId (n : Nat)
  | arr (xs : List String)
  | lockObj (lockedBy : Option String) (isLocked : Bool)
deriving DecidableEq, Repr

/-- A stored document: an ordered association list, like a Python dict. -/
abbrev Doc := List (String × Value)

/-- Python truthiness (`bool(v)`) of a stored value: `None` and the empty
string and empty list are falsy; everything else here is truthy. -/
def truthy : Value → Bool
  | .null => false
  | .str s => !s.isEmpty
  | .bool b => b
  | .objId _ => true
  | .arr xs => !xs.isEmpty
  | .lockObj _ _ => true

/-- `doc.get(k)` / `k in doc`: first value bound to `k`. -/
def getKey (d : Doc) (k : String) : Option Value :=
  (d.find? (fun p => p.1 = k)).map Prod.snd

/-- `k in doc`. -/
def hasKey (d : Doc) (k : String) : Bool :=
  (getKey d k).isSome

/-- `doc[k] = v`: overwrite in place when the key exists (keeping its
position, as a Python dict does), otherwise append at the end. -/
def setKey (d : Doc) (k : String) (v : Value) : Doc :=
  if hasKey d k then d.map (fun p => if p.1 = k then (k, v) else p)
  else d ++ [(k, v)]

/-- `doc.pop(k, None)`: remove the binding of `k`. -/
def removeKey (d : Doc) (k : String) : Doc :=
  d.filter (fun p => ¬ p.1 = k)

/-- `str(ObjectId)`: the external string form of a stored identifier. -/
def valueIdStr : Value → String
  | .objId n => toString n
  | _ => ""

/-- `serialize` from `src/main.py`: rename `_id` to its string form `id`;
when the document carries the secret `gh_access_token` field, replace it by
the boolean `gh_connected` flag computed by Python truthiness. -/
def serialize (doc : Doc) : Doc :=
  if doc.isEmpty then doc
  else
    let idv := (getKey doc "_id").getD .null
    let d := setKey (removeKey doc "_id") "id" (.str (valueIdStr idv))
    if hasKey d "gh_access_token" then
      let tok := (getKey d "gh_access_token").getD .null
      removeKey (setKey d "gh_connected" (.bool (truthy tok))) "gh_access_token"
    else d

/-- `serialize` applied to a possibly-absent document (`find_one` result):
`serialize(None)` is `None`. -/
def serializeOpt (d : Option Doc) : Option Doc :=
  d.map serialize

/-- The two collections of the document store plus the next fresh id.  The
store hands out identifiers; we model them as successive naturals. -/
structure Store where
  workspaces : List Doc
  pages : List Doc
  nextId : Nat
deriving DecidableEq, Repr

/-- `find_one({"_id": i})`: first document with the given id. -/
def findById (docs : List Doc) (i : Nat) : Option Doc :=
  docs.find? (fun d => getKey d "_id" = some (.objId i))

/-- Apply a `$set` update map to one document, key by key. -/
def applySet (d : Doc) (u : List (String × Value)) : Doc :=
  u.foldl (fun acc p => setKey acc p.1 p.2) d

/-- `update_one({"_id": i}, {"$set": u})`: update the first matching
document; no-op when no document matches. -/
def updateById (docs : List Doc) (i : Nat) (u : List (String × Value)) : List Doc :=
  match docs with
  | [] => []
  | d :: rest =>
    if getKey d "_id" = some (.objId i) then applySet d u :: rest
    else d :: updateById rest i u

/-- `update_one({"_id": i}, {"$unset": {k: ""}})`. -/
def unsetById (docs : List Doc) (i : Nat) (k : String) : List Doc :=
  match docs with
  | [] => []
  | d :: rest =>
    if getKey d "_id" = some (.objId i) then removeKey d k :: rest
    else d :: unsetById rest i k

/-! ### UTF-8 encoding (Python `str.encode("utf-8")` / `bytes.decode("utf-8")`) -/

/-- UTF-8 encoding of one Unicode scalar value, as a list of byte values. -/
def utf8EncodeChar (c : Char) : List Nat :=
  if c.toNat < 0x80 then [c.toNat]
  else if c.toNat < 0x800 then [0xC0 + c.toNat / 64, 0x80 + c.toNat % 64]
  else if c.toNat < 0x10000 then
    [0xE0 + c.toNat / 4096, 0x80 + c.toNat / 64 % 64, 0x80 + c.toNat % 64]
  else
    [0xF0 + c.toNat / 262144, 0x80 + c.toNat / 4096 % 64, 0x80 + c.toNat / 64 % 64,
     0x80 + c.toNat % 64]

/-- `str.encode("utf-8")` as a list of byte values. -/
def utf8Encode (s : String) : List Nat :=
  s.data.foldr (fun c acc => utf8EncodeChar c ++ acc) []

mutual

/-- UTF-8 decoding of a byte list into characters; `none` on a malformed
byte sequence (Python raises `UnicodeDecodeError` there).  A leading byte
selects how many continuation bytes follow; the three `utf8DecodeTail`
helpers consume them. -/
def utf8DecodeList : List Nat → Option (List Char)
  | [] => some []
  | b :: rest =>
    if b < 0x80 then (utf8DecodeList rest).map (Char.ofNat b :: ·)
    else if b < 0xC0 then none
    else if b < 0xE0 then utf8DecodeTail1 (b - 0xC0) rest
    else if b < 0xF0 then utf8DecodeTail2 (b - 0xE0) rest
    else utf8DecodeTail3 (b - 0xF0) rest

/-- One continuation byte: finish a 2-byte sequence whose high bits are
`hi`. -/
def utf8DecodeTail1 : Nat → List Nat → Option (List Char)
  | hi, b2 :: rest =>
    if 0x80 ≤ b2 ∧ b2 < 0xC0 then
      (utf8DecodeList rest).map (Char.ofNat (hi * 64 + (b2 - 0x80)) :: ·)
    else none
  | _, [] => none

/-- Two continuation bytes: finish a 3-byte sequence. -/
def utf8DecodeTail2 : Nat → List Nat → Option (List Char)
  | hi, b2 :: b3 :: rest =>
    if (0x80 ≤ b2 ∧ b2 < 0xC0) ∧ (0x80 ≤ b3 ∧ b3 < 0xC0) then
      (utf8DecodeList rest).map
        (Char.ofNat (hi * 4096 + (b2 - 0x80) * 64 + (b3 - 0x80)) :: ·)
    else none
  | _, _ => none

/-- Three continuation bytes: finish a 4-byte sequence. -/
def utf8DecodeTail3 : Nat → List Nat → Option (List Char)
  | hi, b2 :: b3 :: b4 :: rest =>
    if (0x80 ≤ b2 ∧ b2 < 0xC0) ∧ (0x80 ≤ b3 ∧ b3 < 0xC0) ∧ (0x80 ≤ b4 ∧ b4 < 0xC0) then
      (utf8DecodeList rest).map
        (Char.ofNat (hi * 262144 + (b2 - 0x80) * 4096 + (b3 - 0x80) * 64 + (b4 - 0x80)) :: ·)
    else none
  | _, _ => none

end

/-- `bytes.decode("utf-8")`. -/
def utf8Decode (bytes : List Nat) : Option String :=
  (utf8DecodeList bytes).map (fun cs => ⟨cs⟩)

/-! ### Base64 (Python `base64.b64encode` / `base64.b64decode`) -/

/-- The standard base64 alphabet. -/
def b64Alphabet : List Char :=
  "ABCDEFGHIJKLMNOPQRSTUVWXYZabcdefghijklmnopqrstuvwxyz0123456789+/".data

/-- Character for one sextet value. -/
def b64char (n : Nat) : Char :=
  b64Alphabet.getD n '='

/-- Sextet value of one base64 character; `none` for a non-alphabet
character. -/
def b64index (c : Char) : Option Nat :=
  b64Alphabet.indexOf? c

/-- `base64.b64encode` on a byte list: groups of three bytes become four
characters; a final group of one or two bytes is padded with `=`. -/
def b64EncodeGroups : List Nat → List Char
  | a :: b :: c :: rest =>
    b64char ((a * 65536 + b * 256 + c) / 262144) ::
      b64char ((a * 65536 + b * 256 + c) / 4096 % 64) ::
      b64char ((a * 65536 + b * 256 + c) / 64 % 64) ::
      b64char ((a * 65536 + b * 256 + c) % 64) :: b64EncodeGroups rest
  | [a, b] =>
    [b64char ((a * 1024 + b * 4) / 4096), b64char ((a * 1024 + b * 4) / 64 % 64),
     b64char ((a * 1024 + b * 4) % 64), '=']
  | [a] =>
    [b64char (a * 16 / 64), b64char (a * 16 % 64), '=', '=']
  | [] => []

/-- `base64.b64decode` on a character list: groups of four characters with
optional trailing padding; `none` on malformed input. -/
def b64DecodeGroups : List Char → Option (List Nat)
  | [] => some []
  | c1 :: c2 :: c3 :: c4 :: rest =>
    if c3 = '=' ∧ c4 = '=' ∧ rest = [] then
      match b64index c1, b64index c2 with
      | some x1, some x2 => some [x1 * 4 + x2 / 16]
      | _, _ => none
    else if c4 = '=' ∧ rest = [] then
      match b64index c1, b64index c2, b64index c3 with
      | some x1, some x2, some x3 =>
        some [x1 * 4 + x2 / 16, (x2 % 16) * 16 + x3 / 4]
      | _, _, _ => none
    else
      match b64index c1, b64index c2, b64index c3, b64index c4, b64DecodeGroups rest with
      | some x1, some x2, some x3, some x4, some r =>
        some ((x1 * 4 + x2 / 16) :: ((x2 % 16) * 16 + x3 / 4) :: ((x3 % 4) * 64 + x4) :: r)
      | _, _, _, _, _ => none
  | _ => none

/-- `base64.b64encode(s.encode("utf-8")).decode("utf-8")` as one step:
the base64 text of a string's UTF-8 bytes. -/
def b64EncodeString (s : String) : String :=
  ⟨b64EncodeGroups (utf8Encode s)⟩

/-- `base64.b64decode(t).decode("utf-8")`: decode base64 text back to a
string; `none` when either decoding step fails. -/
def b64DecodeString (t : String) : Option String :=
  (b64DecodeGroups t.data).bind utf8Decode

/-- An `HTTPException(status_code, detail)`. -/
inductive Err where
  | httpError (status : Nat) (detail : String)
deriving DecidableEq, Repr

instance {ε α : Type} [DecidableEq ε] [DecidableEq α] : DecidableEq (Except ε α) := fun a b =>
  match a, b with
  | .ok x, .ok y => if h : x = y then .isTrue (by rw [h]) else .isFalse (by simp [h])
  | .error x, .error y => if h : x = y then .isTrue (by rw [h]) else .isFalse (by simp [h])
  | .ok _, .error _ => .isFalse (by simp)
  | .error _, .ok _ => .isFalse (by simp)

/-- Decimal digit value of a character, `none` for a non-digit. -/
def digitVal (c : Char) : Option Nat :=
  if 48 ≤ c.toNat ∧ c.toNat ≤ 57 then some (c.toNat - 48) else none

/-- Parse a decimal numeral, `none` on any non-digit. -/
def parseDecimalAux : List Char → Nat → Option Nat
  | [], acc => some acc
  | c :: cs, acc =>
    match digitVal c with
    | some d => parseDecimalAux cs (acc * 10 + d)
    | none => none

/-- A well-formed external id: a non-empty decimal numeral. -/
def parseObjectId (s : String) : Option Nat :=
  if s.data.isEmpty then none else parseDecimalAux s.data 0

/-- `to_object_id`: parse the external id string, failing with
`400 Invalid id` when malformed.  Well-formed external ids are modelled as
decimal numerals. -/
def to_object_id (s : String) : Except Err Nat :=
  match parseObjectId s with
  | some n => .ok n
  | none => .error (.httpError 400 "Invalid id")

/-! ### Request payloads (`src/schemas.py`)

Pydantic parses an omitted optional field and an explicit `null` to the
same `None`, so both are one `Option.none` here. -/

/-- `Workspace` payload. -/
structure Workspace where
  name : String
  gh_access_token : Option String := none
  gh_repo_full_name : Option String := none
  gh_default_branch : Option String := some "main"
deriving DecidableEq, Repr

/-- `Page` payload. -/
structure Page where
  title : String
  content : String := ""
  folder_path : String := "/"
  tags : List String := []
  workspace_id : String
  git_path : Option String := none
deriving DecidableEq, Repr

/-- `PageUpdate` payload. -/
structure PageUpdate where
  title : Option String := none
  content : Option String := none
  folder_path : Option String := none
  tags : Option (List String) := none
  git_path : Option String := none
deriving DecidableEq, Repr

/-- `GitConnect` payload. -/
structure GitConnect where
  workspace_id : String
  access_token : String
deriving DecidableEq, Repr

/-- `GitRepoSelect` payload. -/
structure GitRepoSelect where
  workspace_id : String
  owner : String
  repo : String
  default_branch : Option String := some "main"
deriving DecidableEq, Repr

/-- `GitSyncPage` payload. -/
structure GitSyncPage where
  page_id : String
  path : String
  commit_message : Option String := some "docs: update from workspace"
deriving DecidableEq, Repr

/-- `GitPullPage` payload. -/
structure GitPullPage where
  page_id : String
deriving DecidableEq, Repr

/-- `LockPayload` payload. -/
structure LockPayload where
  locked_by : Option String := none
  is_locked : Bool := true
deriving DecidableEq, Repr

/-- A Python `Optional[str]` value as a stored JSON value. -/
def optStr : Option String → Value
  | some s => .str s
  | none => .null

/-- Modelled from the spec: `database.create_document` (the store adapter,
not under `src/`) inserts the model dump of the payload — every declared
field, optional ones as `null` when absent — and the store assigns the new
identifier.  Dump of a `Workspace` payload with its fresh id. -/
def Workspace.toDoc (w : Workspace) (i : Nat) : Doc :=
  [("_id", .objId i), ("name", .str w.name),
   ("gh_access_token", optStr w.gh_access_token),
   ("gh_repo_full_name", optStr w.gh_repo_full_name),
   ("gh_default_branch", optStr w.gh_default_branch)]

/-- Modelled from the spec: dump of a `Page` payload with its fresh id
(see `Workspace.toDoc`). -/
def Page.toDoc (p : Page) (i : Nat) : Doc :=
  [("_id", .objId i), ("title", .str p.title), ("content", .str p.content),
   ("folder_path", .str p.folder_path), ("tags", .arr p.tags),
   ("workspace_id", .str p.workspace_id), ("git_path", optStr p.git_path)]

/-- `payload.model_dump(exclude_none=True)` for a `PageUpdate`: only the
fields that are present, in declaration order. -/
def PageUpdate.dump (p : PageUpdate) : List (String × Value) :=
  (match p.title with | some t => [("title", Value.str t)] | none => []) ++
  (match p.content with | some c => [("content", Value.str c)] | none => []) ++
  (match p.folder_path with | some f => [("folder_path", Value.str f)] | none => []) ++
  (match p.tags with | some ts => [("tags", Value.arr ts)] | none => []) ++
  (match p.git_path with | some g => [("git_path", Value.str g)] | none => [])

/-! ### Endpoints (`src/main.py`) -/

/-- `doc[k]` read as a string, for fields that are strings on every stored
document (`page["workspace_id"]`, `page.get("content", "")`, ...). -/
def getStrD (d : Doc) (k : String) : String :=
  match getKey d k with
  | some (.str s) => s
  | _ => ""

/-- `POST /workspaces`: insert the dump, re-fetch by the new id, return it
serialized. -/
def create_workspace (st : Store) (payload : Workspace) : Option Doc × Store :=
  let st' : Store := { st with workspaces := st.workspaces ++ [payload.toDoc st.nextId],
                               nextId := st.nextId + 1 }
  (serializeOpt (findById st'.workspaces st.nextId), st')

/-- `GET /workspaces`: up to 50 workspaces, store order, serialized. -/
def list_workspaces (st : Store) : List Doc :=
  (st.workspaces.take 50).map serialize

/-- `POST /pages`: check the workspace exists, insert, re-fetch, serialize. -/
def create_page (st : Store) (payload : Page) : Except Err (Option Doc) × Store :=
  match to_object_id payload.workspace_id with
  | .error e => (.error e, st)
  | .ok wsid =>
    match findById st.workspaces wsid with
    | none => (.error (.httpError 404 "Workspace not found"), st)
    | some _ =>
      let st' : Store := { st with pages := st.pages ++ [payload.toDoc st.nextId],
                                   nextId := st.nextId + 1 }
      (.ok (serializeOpt (findById st'.pages st.nextId)), st')

/-- `GET /pages?workspace_id&folder_path?`: filter by workspace id and — only
when `folder_path` is truthy (present and non-empty) — by exact folder
path; limit 200; serialize. -/
def list_pages (st : Store) (workspace_id : String) (folder_path : Option String) : List Doc :=
  let matches_ := fun (d : Doc) =>
    decide (getKey d "workspace_id" = some (.str workspace_id)) &&
    (match folder_path with
     | some f => if f.isEmpty then true else decide (getKey d "folder_path" = some (.str f))
     | none => true)
  ((st.pages.filter matches_).take 200).map serialize

/-- `GET /pages/{id}`: fetch one page, `404` when absent. -/
def get_page (st : Store) (page_id : String) : Except Err Doc :=
  match to_object_id page_id with
  | .error e => .error e
  | .ok i =>
    match findById st.pages i with
    | none => .error (.httpError 404 "Page not found")
    | some d => .ok (serialize d)

/-- `PATCH /pages/{id}`: drop absent fields; on an empty update return the
current record without writing; otherwise `$set` the given fields and
re-fetch. -/
def update_page (st : Store) (page_id : String) (payload : PageUpdate) :
    Except Err Doc × Store :=
  let update := payload.dump
  if update.isEmpty then (get_page st page_id, st)
  else
    match to_object_id page_id with
    | .error e => (.error e, st)
    | .ok i =>
      let st' : Store := { st with pages := updateById st.pages i update }
      (get_page st' page_id, st')

/-- `DELETE /pages/{id}`: delete one page, `404` when nothing was deleted. -/
def delete_page (st : Store) (page_id : String) : Except Err Unit × Store :=
  match to_object_id page_id with
  | .error e => (.error e, st)
  | .ok i =>
    match findById st.pages i with
    | none => (.error (.httpError 404 "Page not found"), st)
    | some _ => (.ok (), { st with pages := st.pages.filter (fun d => ¬ getKey d "_id" = some (.objId i)) })

/-- `POST /pages/{id}/lock`: unconditionally `$set` the whole `lock`
sub-document, then re-fetch (which raises `404` when the page is absent). -/
def lock_page (st : Store) (page_id : String) (payload : LockPayload) :
    Except Err Doc × Store :=
  match to_object_id page_id with
  | .error e => (.error e, st)
  | .ok i =>
    let upd := [("lock", Value.lockObj payload.locked_by payload.is_locked)]
    let st' : Store := { st with pages := updateById st.pages i upd }
    (get_page st' page_id, st')

/-- `POST /pages/{id}/unlock`: `$unset` the `lock` field, then re-fetch. -/
def unlock_page (st : Store) (page_id : String) : Except Err Doc × Store :=
  match to_object_id page_id with
  | .error e => (.error e, st)
  | .ok i =>
    let st' : Store := { st with pages := unsetById st.pages i "lock" }
    (get_page st' page_id, st')

/-- `POST /github/connect`: `$set` the token on the workspace (a no-op when
the workspace is absent), then return the serialized re-fetch — `None`
when the workspace does not exist.  No existence check is made. -/
def github_connect (st : Store) (payload : GitConnect) :
    Except Err (Option Doc) × Store :=
  match to_object_id payload.workspace_id with
  | .error e => (.error e, st)
  | .ok i =>
    let upd := [("gh_access_token", Value.str payload.access_token)]
    let st' : Store := { st with workspaces := updateById st.workspaces i upd }
    (.ok (serializeOpt (findById st'.workspaces i)), st')

/-- `POST /github/select-repo`: `$set` repo full name and default branch,
then return the serialized re-fetch. -/
def github_select_repo (st : Store) (payload : GitRepoSelect) :
    Except Err (Option Doc) × Store :=
  match to_object_id payload.workspace_id with
  | .error e => (.error e, st)
  | .ok i =>
    let upd := [("gh_repo_full_name", Value.str (payload.owner ++ "/" ++ payload.repo)),
                ("gh_default_branch", optStr payload.default_branch)]
    let st' : Store := { st with workspaces := updateById st.workspaces i upd }
    (.ok (serializeOpt (findById st'.workspaces i)), st')

/-- The remote's response to the GET-contents call: HTTP status, raw body
text, and the JSON fields the code reads (`sha`, `encoding`, `content`). -/
structure ContentsGetResp where
  status : Nat
  text : String
  sha : Option String := none
  encoding : Option String := none
  content : Option String := none
deriving DecidableEq, Repr

/-- The remote's response to the PUT-contents call. -/
structure PutResp where
  status : Nat
  text : String
deriving DecidableEq, Repr

/-- The JSON body of the PUT-contents request the code issues. -/
structure PutBody where
  message : String
  content : String
  branch : Value
  sha : Option String
deriving DecidableEq, Repr

/-- `ws.get("gh_default_branch", "main")`: the stored value, defaulting to
`"main"` only when the key is absent. -/
def wsBranch (ws : Doc) : Value :=
  (getKey ws "gh_default_branch").getD (.str "main")

/-- `payload.commit_message or "docs: update from workspace"` (Python `or`:
the default is used when the message is `None` or empty). -/
def syncMessage (m : Option String) : String :=
  match m with
  | some s => if s.isEmpty then "docs: update from workspace" else s
  | none => "docs: update from workspace"

/-- `POST /github/sync-page`.  The remote's two responses are inputs
(`getResp` for the sha lookup, `putResp` for the create-or-update call);
the issued PUT body is returned so the remote interaction is observable.
Mirrors `github_sync_page` in `src/main.py`: look up the page and its
workspace, require a truthy token and repo name, read the `sha` only from a
`200` GET response, base64-encode the page content, attach the sha to the
PUT body only when truthy, abort on a PUT status `≥ 300` with the remote
status and body, else persist `git_path` and re-fetch the page. -/
def github_sync_page (st : Store) (payload : GitSyncPage)
    (getResp : ContentsGetResp) (putResp : PutResp) :
    Except Err Doc × Store × Option PutBody :=
  match to_object_id payload.page_id with
  | .error e => (.error e, st, none)
  | .ok pid =>
  match findById st.pages pid with
  | none => (.error (.httpError 404 "Page not found"), st, none)
  | some page =>
  match to_object_id (getStrD page "workspace_id") with
  | .error e => (.error e, st, none)
  | .ok wsid =>
  match findById st.workspaces wsid with
  | none => (.error (.httpError 400 "GitHub not configured for workspace"), st, none)
  | some ws =>
  if ¬ (truthy ((getKey ws "gh_access_token").getD .null) = true ∧
        truthy ((getKey ws "gh_repo_full_name").getD .null) = true) then
    (.error (.httpError 400 "GitHub not configured for workspace"), st, none)
  else
    let sha : Option String := if getResp.status = 200 then getResp.sha else none
    let content_b64 := b64EncodeString (getStrD page "content")
    let body : PutBody :=
      { message := syncMessage payload.commit_message
        content := content_b64
        branch := wsBranch ws
        sha := match sha with
               | some s => if s.isEmpty then none else some s
               | none => none }
    if putResp.status ≥ 300 then
      (.error (.httpError putResp.status putResp.text), st, some body)
    else
      let st' : Store := { st with pages := updateById st.pages pid [("git_path", .str payload.path)] }
      (get_page st' (valueIdStr ((getKey page "_id").getD .null)), st', some body)

/-- `POST /github/pull-page`.  The remote's GET-contents response is an
input.  Mirrors `github_pull_page` in `src/main.py`: require a page with a
truthy `git_path` and a configured workspace, abort on a GET status
`≥ 300` with the remote status and body, and only when the response says
`encoding == "base64"` with truthy content decode it and overwrite the
page's `content`; then re-fetch the page. -/
def github_pull_page (st : Store) (payload : GitPullPage)
    (getResp : ContentsGetResp) : Except Err Doc × Store :=
  match to_object_id payload.page_id with
  | .error e => (.error e, st)
  | .ok pid =>
  match findById st.pages pid with
  | none => (.error (.httpError 400 "Page not synced to a git path yet"), st)
  | some page =>
  if ¬ truthy ((getKey page "git_path").getD .null) = true then
    (.error (.httpError 400 "Page not synced to a git path yet"), st)
  else
  match to_object_id (getStrD page "workspace_id") with
  | .error e => (.error e, st)
  | .ok wsid =>
  match findById st.workspaces wsid with
  | none => (.error (.httpError 400 "GitHub not configured for workspace"), st)
  | some ws =>
  if ¬ (truthy ((getKey ws "gh_access_token").getD .null) = true ∧
        truthy ((getKey ws "gh_repo_full_name").getD .null) = true) then
    (.error (.httpError 400 "GitHub not configured for workspace"), st)
  else if getResp.status ≥ 300 then
    (.error (.httpError getResp.status getResp.text), st)
  else
    let doPull := getResp.encoding = some "base64" ∧
      truthy (optStr getResp.content) = true
    if doPull then
      match b64DecodeString (getResp.content.getD "") with
      | some content =>
        let st' : Store := { st with pages := updateById st.pages pid [("content", .str content)] }
        (get_page st' (valueIdStr ((getKey page "_id").getD .null)), st')
      | none =>
        -- Python raises out of `base64.b64decode`/`bytes.decode` here,
        -- surfacing as an unhandled 500.
        (.error (.httpError 500 "Internal Server Error"), st)
    else
      (get_page st (valueIdStr ((getKey page "_id").getD .null)), st)

/-- ASCII lower-casing of one character (the regex engine's `i` option
folds ASCII letters). -/
def lowerChar (c : Char) : Char :=
  if 65 ≤ c.toNat ∧ c.toNat ≤ 90 then Char.ofNat (c.toNat + 32) else c

/-- Case-insensitive substring test: does `hay` contain `pat`? -/
def strContainsCI (hay pat : String) : Bool :=
  (hay.data.map lowerChar).tails.any
    (fun t => (pat.data.map lowerChar).isPrefixOf t)

/-- Modelled from the spec: the document store's pattern matcher (the store
adapter is not under `src/`).  Per §4.1/§4.5 a well-formed pattern matches
as a case-insensitive substring of a string field, and of any element of a
list-of-strings field. -/
def regexMatchCI (pat : String) (v : Value) : Bool :=
  match v with
  | .str s => strContainsCI s pat
  | .arr xs => xs.any (fun s => strContainsCI s pat)
  | _ => false

/-- Modelled from the spec: the store rejects a malformed ("unsafe")
pattern (§4.5).  Malformed means structurally broken regex syntax:
unbalanced parentheses or a dangling unescaped trailing backslash. -/
def patternMalformed (q : String) : Bool :=
  decide (q.data.count '(' ≠ q.data.count ')') ||
  decide ((q.data.reverse.takeWhile (fun c => c == '\\')).length % 2 = 1)

/-- The filter the search query sends to the store: `workspace_id`
equality AND (`title` OR `content` OR `tags` regex-matches). -/
def searchPred (workspace_id q : String) (d : Doc) : Bool :=
  decide (getKey d "workspace_id" = some (.str workspace_id)) &&
  (regexMatchCI q ((getKey d "title").getD .null) ||
   regexMatchCI q ((getKey d "content").getD .null) ||
   regexMatchCI q ((getKey d "tags").getD .null))

/-- `GET /search?workspace_id&q`: run the regex query against the page
collection, limited to 50 serialized results; a store error from a
malformed pattern is caught and surfaced as a `400`. -/
def search (st : Store) (workspace_id q : String) : Except Err (List Doc) :=
  if patternMalformed q then
    .error (.httpError 400 "Invalid query")
  else
    .ok (((st.pages.filter (searchPred workspace_id q)).take 50).map serialize)

/-! ### Round-trip lemmas for the encoding layer -/

theorem char_toNat_lt (c : Char) : c.toNat < 1114112 := by
  have h := c.valid
  rcases h with h | ⟨_, h⟩ <;>
    · simp only [Char.toNat]
      omega

theorem utf8DecodeList_encodeChar (c : Char) (r : List Nat) :
    utf8DecodeList (utf8EncodeChar c ++ r) = (utf8DecodeList r).map (c :: ·) := by
  have hv := char_toNat_lt c
  by_cases h1 : c.toNat < 0x80
  · simp only [utf8EncodeChar, if_pos h1, List.cons_append, List.nil_append]
    rw [utf8DecodeList, if_pos h1, Char.ofNat_toNat]
  · by_cases h2 : c.toNat < 0x800
    · simp only [utf8EncodeChar, if_neg h1, if_pos h2, List.cons_append, List.nil_append]
      rw [utf8DecodeList, if_neg (by omega), if_neg (by omega), if_pos (by omega),
        utf8DecodeTail1, if_pos (by omega)]
      have e : (0xC0 + c.toNat / 64 - 0xC0) * 64 + (0x80 + c.toNat % 64 - 0x80) = c.toNat := by
        omega
      rw [e, Char.ofNat_toNat]
    · by_cases h3 : c.toNat < 0x10000
      · simp only [utf8EncodeChar, if_neg h1, if_neg h2, if_pos h3, List.cons_append,
          List.nil_append]
        rw [utf8DecodeList, if_neg (by omega), if_neg (by omega), if_neg (by omega),
          if_pos (by omega), utf8DecodeTail2, if_pos (by omega)]
        have e : (0xE0 + c.toNat / 4096 - 0xE0) * 4096 + (0x80 + c.toNat / 64 % 64 - 0x80) * 64 +
            (0x80 + c.toNat % 64 - 0x80) = c.toNat := by omega
        rw [e, Char.ofNat_toNat]
      · simp only [utf8EncodeChar, if_neg h1, if_neg h2, if_neg h3, List.cons_append,
          List.nil_append]
        rw [utf8DecodeList, if_neg (by omega), if_neg (by omega), if_neg (by omega),
          if_neg (by omega), utf8DecodeTail3, if_pos (by omega)]
        have e : (0xF0 + c.toNat / 262144 - 0xF0) * 262144 +
            (0x80 + c.toNat / 4096 % 64 - 0x80) * 4096 +
            (0x80 + c.toNat / 64 % 64 - 0x80) * 64 + (0x80 + c.toNat % 64 - 0x80) = c.toNat := by
          omega
        rw [e, Char.ofNat_toNat]

theorem utf8DecodeList_foldr (cs : List Char) :
    utf8DecodeList (cs.foldr (fun c acc => utf8EncodeChar c ++ acc) []) = some cs := by
  induction cs with
  | nil => rw [List.foldr_nil, utf8DecodeList]
  | cons c cs ih =>
    rw [List.foldr_cons, utf8DecodeList_encodeChar, ih]
    rfl

theorem utf8Decode_utf8Encode (s : String) : utf8Decode (utf8Encode s) = some s := by
  rw [utf8Decode, utf8Encode, utf8DecodeList_foldr]
  rfl

theorem utf8EncodeChar_lt (c : Char) : ∀ b ∈ utf8EncodeChar c, b < 256 := by
  have hv := char_toNat_lt c
  intro b hb
  rw [utf8EncodeChar] at hb
  by_cases h1 : c.toNat < 0x80
  · rw [if_pos h1] at hb
    simp only [List.mem_singleton] at hb
    omega
  · by_cases h2 : c.toNat < 0x800
    · rw [if_neg h1, if_pos h2] at hb
      simp only [List.mem_cons, List.mem_singleton, List.not_mem_nil, or_false] at hb
      rcases hb with h | h <;> omega
    · by_cases h3 : c.toNat < 0x10000
      · rw [if_neg h1, if_neg h2, if_pos h3] at hb
        simp only [List.mem_cons, List.mem_singleton, List.not_mem_nil, or_false] at hb
        rcases hb with h | h | h <;> omega
      · rw [if_neg h1, if_neg h2, if_neg h3] at hb
        simp only [List.mem_cons, List.mem_singleton, List.not_mem_nil, or_false] at hb
        rcases hb with h | h | h | h <;> omega

theorem utf8Encode_lt (s : String) : ∀ b ∈ utf8Encode s, b < 256 := by
  rw [utf8Encode]
  induction s.data with
  | nil => intro b hb; simp at hb
  | cons c cs ih =>
    intro b hb
    rw [List.foldr_cons, List.mem_append] at hb
    rcases hb with h | h
    · exact utf8EncodeChar_lt c b h
    · exact ih b h

theorem b64index_b64char : ∀ n < 64, b64index (b64char n) = some n := by decide

theorem b64char_ne_pad : ∀ n < 64, ¬ b64char n = '=' := by decide

theorem b64DecodeGroups_encode (l : List Nat) (hl : ∀ b ∈ l, b < 256) :
    b64DecodeGroups (b64EncodeGroups l) = some l := by
  induction l using b64EncodeGroups.induct with
  | case1 a b c rest ih =>
    have ha : a < 256 := hl a (by simp)
    have hb : b < 256 := hl b (by simp)
    have hc : c < 256 := hl c (by simp)
    rw [b64EncodeGroups, b64DecodeGroups,
      if_neg (by exact fun h => b64char_ne_pad _ (by omega) h.1),
      if_neg (by exact fun h => b64char_ne_pad _ (by omega) h.1),
      b64index_b64char _ (by omega), b64index_b64char _ (by omega),
      b64index_b64char _ (by omega), b64index_b64char _ (by omega),
      ih (fun x hx => hl x (by simp [hx]))]
    simp only [Option.some.injEq, List.cons.injEq]
    refine ⟨by omega, by omega, by omega, trivial⟩
  | case2 a b =>
    have ha : a < 256 := hl a (by simp)
    have hb : b < 256 := hl b (by simp)
    rw [b64EncodeGroups, b64DecodeGroups,
      if_neg (by exact fun h => b64char_ne_pad _ (by omega) h.1),
      if_pos (by simp),
      b64index_b64char _ (by omega), b64index_b64char _ (by omega),
      b64index_b64char _ (by omega)]
    simp only [Option.some.injEq, List.cons.injEq, and_true]
    refine ⟨by omega, by omega⟩
  | case3 a =>
    have ha : a < 256 := hl a (by simp)
    rw [b64EncodeGroups, b64DecodeGroups, if_pos (by simp),
      b64index_b64char _ (by omega), b64index_b64char _ (by omega)]
    simp only [Option.some.injEq, List.cons.injEq, and_true]
    omega
  | case4 => rfl

theorem b64DecodeString_encodeString (s : String) :
    b64DecodeString (b64EncodeString s) = some s := by
  rw [b64EncodeString, b64DecodeString]
  have hdata : (String.mk (b64EncodeGroups (utf8Encode s))).data
      = b64EncodeGroups (utf8Encode s) := rfl
  rw [hdata, b64DecodeGroups_encode _ (utf8Encode_lt s), Option.some_bind,
    utf8Decode_utf8Encode]

/-! ### Association-list lemmas -/

theorem getKey_cons (k' : String) (v' : Value) (d : Doc) (k : String) :
    getKey ((k', v') :: d) k = if k' = k then some v' else getKey d k := by
  by_cases h : k' = k <;> simp [getKey, List.find?_cons, h]

theorem hasKey_cons (k' : String) (v' : Value) (d : Doc) (k : String) :
    hasKey ((k', v') :: d) k = if k' = k then true else hasKey d k := by
  by_cases h : k' = k <;> simp [hasKey, getKey_cons, h]

theorem getKey_append_left (d1 d2 : Doc) (k : String) (h : hasKey d1 k = true) :
    getKey (d1 ++ d2) k = getKey d1 k := by
  induction d1 with
  | nil => simp [hasKey, getKey] at h
  | cons p d1 ih =>
    obtain ⟨k', v'⟩ := p
    rw [List.cons_append, getKey_cons, getKey_cons]
    by_cases hk : k' = k
    · simp [hk]
    · rw [if_neg hk, if_neg hk]
      apply ih
      rw [hasKey_cons, if_neg hk] at h
      exact h

theorem getKey_append_right (d1 d2 : Doc) (k : String) (h : hasKey d1 k = false) :
    getKey (d1 ++ d2) k = getKey d2 k := by
  induction d1 with
  | nil => rfl
  | cons p d1 ih =>
    obtain ⟨k', v'⟩ := p
    rw [hasKey_cons] at h
    by_cases hk : k' = k
    · rw [if_pos hk] at h; exact absurd h (by simp)
    · rw [if_neg hk] at h
      rw [List.cons_append, getKey_cons, if_neg hk]
      exact ih h

theorem getKey_setKey_self (d : Doc) (k : String) (v : Value) :
    getKey (setKey d k v) k = some v := by
  rw [setKey]
  by_cases h : hasKey d k = true
  · rw [if_pos h]
    induction d with
    | nil => simp [hasKey, getKey] at h
    | cons p d ih =>
      obtain ⟨k', v'⟩ := p
      rw [List.map_cons]
      by_cases hk : k' = k
      · simp [if_pos hk, getKey_cons]
      · simp only [if_neg hk, getKey_cons, if_neg hk]
        rw [hasKey_cons, if_neg hk] at h
        exact ih h
  · rw [if_neg h]
    rw [getKey_append_right _ _ _ (by simpa using h), getKey_cons, if_pos rfl]

theorem getKey_mapSet_ne (d : Doc) (k k' : String) (v : Value) (h : ¬ k = k') :
    getKey (d.map (fun p => if p.1 = k then (k, v) else p)) k' = getKey d k' := by
  induction d with
  | nil => rfl
  | cons p d ih =>
    obtain ⟨k1, v1⟩ := p
    rw [List.map_cons]
    by_cases hk : k1 = k
    · simp only [if_pos hk]
      rw [getKey_cons, if_neg h, getKey_cons, if_neg (by rw [hk]; exact h)]
      exact ih
    · simp only [if_neg hk]
      by_cases he : k1 = k'
      · rw [getKey_cons, if_pos he, getKey_cons, if_pos he]
      · rw [getKey_cons, if_neg he, getKey_cons, if_neg he]
        exact ih

theorem getKey_setKey_ne (d : Doc) (k k' : String) (v : Value) (h : ¬ k = k') :
    getKey (setKey d k v) k' = getKey d k' := by
  rw [setKey]
  by_cases hh : hasKey d k = true
  · rw [if_pos hh]
    exact getKey_mapSet_ne d k k' v h
  · rw [if_neg hh]
    by_cases hd : hasKey d k' = true
    · rw [getKey_append_left _ _ _ hd]
    · rw [getKey_append_right _ _ _ (by simpa using hd), getKey_cons, if_neg h]
      rcases hg : getKey d k' with _ | v'
      · rfl
      · exact absurd (by simp [hasKey, hg]) hd

theorem getKey_removeKey_self (d : Doc) (k : String) : getKey (removeKey d k) k = none := by
  induction d with
  | nil => rfl
  | cons p d ih =>
    obtain ⟨k1, v1⟩ := p
    by_cases hk : k1 = k
    · simpa [removeKey, List.filter_cons, hk] using ih
    · simpa [removeKey, List.filter_cons, hk, getKey_cons] using ih

theorem getKey_removeKey_ne (d : Doc) (k k' : String) (h : ¬ k = k') :
    getKey (removeKey d k) k' = getKey d k' := by
  induction d with
  | nil => rfl
  | cons p d ih =>
    obtain ⟨k1, v1⟩ := p
    by_cases hk : k1 = k
    · have hk' : ¬ k1 = k' := by rw [hk]; exact h
      simpa [removeKey, List.filter_cons, hk, getKey_cons, hk', h] using ih
    · by_cases he : k1 = k'
      · simp [removeKey, List.filter_cons, hk, getKey_cons, he, Ne.symm h]
      · simpa [removeKey, List.filter_cons, hk, getKey_cons, he, h] using ih

theorem applySet_cons (d : Doc) (p : String × Value) (u : List (String × Value)) :
    applySet d (p :: u) = applySet (setKey d p.1 p.2) u := rfl

theorem getKey_applySet_not_mem (d : Doc) (u : List (String × Value)) (k : String)
    (hu : ∀ p ∈ u, ¬ p.1 = k) : getKey (applySet d u) k = getKey d k := by
  induction u generalizing d with
  | nil => rfl
  | cons p u ih =>
    rw [applySet_cons, ih _ (fun q hq => hu q (List.mem_cons_of_mem p hq))]
    exact getKey_setKey_ne _ _ _ _ (hu p (List.mem_cons_self p u))

theorem getKey_applySet_mem (d : Doc) (u : List (String × Value)) (k : String) (v : Value)
    (hnd : (u.map Prod.fst).Nodup) (hu : (k, v) ∈ u) :
    getKey (applySet d u) k = some v := by
  induction u generalizing d with
  | nil => cases hu
  | cons p u ih =>
    rw [applySet_cons]
    rcases List.mem_cons.mp hu with h | h
    · subst h
      rw [getKey_applySet_not_mem _ _ _ (by
        intro q hq hqk
        exact (List.nodup_cons.mp hnd).1 (hqk ▸ List.mem_map.mpr ⟨q, hq, rfl⟩))]
      exact getKey_setKey_self d k v
    · exact ih (setKey d p.1 p.2) (List.nodup_cons.mp hnd).2 h

theorem hasKey_of_getKey (d : Doc) (k : String) (v : Value) (h : getKey d k = some v) :
    hasKey d k = true := by
  rw [hasKey, h]
  rfl

/-- The central fact about `serialize`: when the document binds the secret
field to `v`, the serialized document drops the raw secret and carries the
flag `bool(v)`; any key other than `_id`, `id`, `gh_access_token` and
`gh_connected` is untouched. -/
theorem serialize_token (d : Doc) (v : Value)
    (hd : getKey d "gh_access_token" = some v) :
    hasKey (serialize d) "gh_access_token" = false ∧
    getKey (serialize d) "gh_connected" = some (.bool (truthy v)) := by
  have hne : ¬ d.isEmpty = true := by
    cases d
    · cases hd
    · simp
  rw [serialize, if_neg hne]
  have hmid : getKey (setKey (removeKey d "_id") "id"
      (.str (valueIdStr ((getKey d "_id").getD .null)))) "gh_access_token" = some v := by
    rw [getKey_setKey_ne _ _ _ _ (by decide), getKey_removeKey_ne _ _ _ (by decide)]
    exact hd
  rw [if_pos (hasKey_of_getKey _ _ _ hmid)]
  constructor
  · rw [hasKey, getKey_removeKey_self]
    rfl
  · rw [getKey_removeKey_ne _ _ _ (by decide), getKey_setKey_self, hmid]
    rfl

/-- A document in an updated collection is either an old document or the
`$set`-image of an old document. -/
theorem mem_updateById (docs : List Doc) (i : Nat) (u : List (String × Value)) :
    ∀ d ∈ updateById docs i u, d ∈ docs ∨ ∃ d0, d0 ∈ docs ∧ d = applySet d0 u := by
  induction docs with
  | nil => intro d hd; cases hd
  | cons d0 docs ih =>
    intro d hd
    rw [updateById] at hd
    by_cases hid : getKey d0 "_id" = some (.objId i)
    · rw [if_pos hid] at hd
      rcases List.mem_cons.mp hd with h | h
      · exact Or.inr ⟨d0, List.mem_cons_self d0 docs, h⟩
      · exact Or.inl (List.mem_cons_of_mem _ h)
    · rw [if_neg hid] at hd
      rcases List.mem_cons.mp hd with h | h
      · exact Or.inl (h ▸ List.mem_cons_self d0 docs)
      · rcases ih d h with h' | ⟨e, he, hee⟩
        · exact Or.inl (List.mem_cons_of_mem _ h')
        · exact Or.inr ⟨e, List.mem_cons_of_mem _ he, hee⟩

theorem findById_mem (docs : List Doc) (i : Nat) (d : Doc) (h : findById docs i = some d) :
    d ∈ docs :=
  List.mem_of_find?_eq_some h

/-! ### Claim C1: serialized workspaces hide the credential -/

/-- The secret field of a stored workspace is a string or null (true of
every document the endpoints ever write). -/
def tokenTyped (d : Doc) : Bool :=
  match getKey d "gh_access_token" with
  | some .null => true
  | some (.str _) => true
  | _ => false

/-- Every stored workspace document has a string-or-null secret field. -/
def wsTokenWF (st : Store) : Prop :=
  ∀ d ∈ st.workspaces, tokenTyped d = true

/-- What C1 (amended) asserts of a serialized output `out` produced from
the stored document `d`: no raw credential key, a boolean `gh_connected`
flag equal to the truthiness of the stored credential, and the flag is
`true` exactly when a non-empty credential string is set. -/
def hidesCredential (d out : Doc) : Prop :=
  hasKey out "gh_access_token" = false ∧
  ∃ v, getKey d "gh_access_token" = some v ∧
    getKey out "gh_connected" = some (.bool (truthy v)) ∧
    (getKey out "gh_connected" = some (.bool true) ↔ ∃ s, v = Value.str s ∧ ¬ s = "")

theorem serialize_hidesCredential (d : Doc) (ht : tokenTyped d = true) :
    hidesCredential d (serialize d) := by
  rw [tokenTyped] at ht
  rcases hv : getKey d "gh_access_token" with _ | v
  · rw [hv] at ht
    cases ht
  · rw [hv] at ht
    have hs := serialize_token d v hv
    refine ⟨hs.1, v, hv, hs.2, ?_⟩
    rw [hs.2]
    cases v with
    | null => simp [truthy]
    | str s =>
      by_cases hse : s = ""
      · subst hse
        simp [truthy]
        decide
      · have hie : s.isEmpty = false := by
          cases hb : s.isEmpty
          · rfl
          · exact absurd ((String.isEmpty_iff s).mp hb) hse
        simp [truthy, hie, hse]
    | bool b => cases ht
    | objId n => cases ht
    | arr xs => cases ht
    | lockObj lb il => cases ht

theorem tokenTyped_toDoc (w : Workspace) (i : Nat) : tokenTyped (w.toDoc i) = true := by
  cases h : w.gh_access_token <;>
    simp [tokenTyped, Workspace.toDoc, getKey_cons, optStr, h]

/-- C1 (amended): every workspace document returned by create-workspace,
list-workspaces, connect-credential or select-repository is the
serialization of a stored document; it carries no raw `gh_access_token`
and carries a boolean `gh_connected` equal to the truthiness of the stored
credential, which is `true` iff a non-empty credential string is set.
(The original claim, with "iff a credential string was previously set", is
refuted by `c1_counterexample`.) -/
theorem c1_theorem (st : Store) (hwf : wsTokenWF st)
    (w : Workspace) (gc : GitConnect) (grs : GitRepoSelect) :
    (∀ out, (create_workspace st w).1 = some out →
      ∃ d, out = serialize d ∧ hidesCredential d out) ∧
    (∀ out ∈ list_workspaces st, ∃ d, out = serialize d ∧ hidesCredential d out) ∧
    (∀ out, (github_connect st gc).1 = .ok (some out) →
      ∃ d, out = serialize d ∧ hidesCredential d out) ∧
    (∀ out, (github_select_repo st grs).1 = .ok (some out) →
      ∃ d, out = serialize d ∧ hidesCredential d out) := by
  refine ⟨?_, ?_, ?_, ?_⟩
  · intro out h
    simp only [create_workspace, serializeOpt] at h
    rcases hf : findById (st.workspaces ++ [w.toDoc st.nextId]) st.nextId with _ | d <;>
      rw [hf] at h
    · cases h
    · simp only [Option.map_some', Option.some.injEq] at h
      have hd := findById_mem _ _ _ hf
      have ht : tokenTyped d = true := by
        rcases List.mem_append.mp hd with hm | hm
        · exact hwf d hm
        · rw [List.mem_singleton.mp hm]
          exact tokenTyped_toDoc w st.nextId
      exact ⟨d, h.symm, h ▸ serialize_hidesCredential d ht⟩
  · intro out h
    rcases List.mem_map.mp h with ⟨d, hd, hout⟩
    have ht := hwf d (List.take_subset 50 st.workspaces hd)
    exact ⟨d, hout.symm, hout ▸ serialize_hidesCredential d ht⟩
  · intro out h
    rcases hto : to_object_id gc.workspace_id with e | i
    · simp only [github_connect, hto] at h
      simp at h
    · simp only [github_connect, hto, serializeOpt] at h
      rcases hf : findById (updateById st.workspaces i
          [("gh_access_token", Value.str gc.access_token)]) i with _ | d <;>
        rw [hf] at h
      · simp at h
      · simp only [Option.map_some', Except.ok.injEq, Option.some.injEq] at h
        have hd := findById_mem _ _ _ hf
        have ht : tokenTyped d = true := by
          rcases mem_updateById _ _ _ _ hd with hm | ⟨d0, _, hde⟩
          · exact hwf d hm
          · rw [hde, tokenTyped,
              getKey_applySet_mem d0 _ _ (Value.str gc.access_token) (by simp)
                (List.mem_singleton_self _)]
        exact ⟨d, h.symm, h ▸ serialize_hidesCredential d ht⟩
  · intro out h
    rcases hto : to_object_id grs.workspace_id with e | i
    · simp only [github_select_repo, hto] at h
      simp at h
    · simp only [github_select_repo, hto, serializeOpt] at h
      rcases hf : findById (updateById st.workspaces i
          [("gh_repo_full_name", Value.str (grs.owner ++ "/" ++ grs.repo)),
           ("gh_default_branch", optStr grs.default_branch)]) i with _ | d <;>
        rw [hf] at h
      · simp at h
      · simp only [Option.map_some', Except.ok.injEq, Option.some.injEq] at h
        have hd := findById_mem _ _ _ hf
        have ht : tokenTyped d = true := by
          rcases mem_updateById _ _ _ _ hd with hm | ⟨d0, hd0, hde⟩
          · exact hwf d hm
          · rw [hde, tokenTyped, getKey_applySet_not_mem _ _ _ (by
              intro p hp
              rcases List.mem_cons.mp hp with hp | hp
              · rw [hp]; simp
              · rw [List.mem_singleton.mp hp]; simp)]
            have := hwf d0 hd0
            rw [tokenTyped] at this
            exact this
        exact ⟨d, h.symm, h ▸ serialize_hidesCredential d ht⟩

/-- Fixture: the workspace document created by `POST /workspaces` with
payload `{name: "Acme"}` and id 1. -/
def wsAcme : Doc := Workspace.toDoc { name := "Acme" } 1

/-- C1 (counterexample to the original claim): connect-credential can set
the credential to the empty string; the credential is then set (a string
is stored) but the serialized output carries `gh_connected = false`, so
"`connected` is true iff a credential string was previously set" fails. -/
theorem c1_counterexample :
    (github_connect ⟨[wsAcme], [], 2⟩ ⟨"1", ""⟩).2.workspaces =
      [[("_id", .objId 1), ("name", .str "Acme"), ("gh_access_token", .str ""),
        ("gh_repo_full_name", .null), ("gh_default_branch", .str "main")]] ∧
    (github_connect ⟨[wsAcme], [], 2⟩ ⟨"1", ""⟩).1 =
      .ok (some [("name", .str "Acme"), ("gh_repo_full_name", .null),
        ("gh_default_branch", .str "main"), ("id", .str "1"),
        ("gh_connected", .bool false)]) := by
  constructor <;> decide

/-- C1 witness: the amended theorem applied to a one-workspace store. -/
theorem c1_witness :
    wsTokenWF ⟨[wsAcme], [], 2⟩ ∧
    (∀ out ∈ list_workspaces ⟨[wsAcme], [], 2⟩,
      ∃ d, out = serialize d ∧ hidesCredential d out) := by
  have hwf : wsTokenWF ⟨[wsAcme], [], 2⟩ := by
    intro d hd
    rw [List.mem_singleton.mp hd]
    decide
  exact ⟨hwf, (c1_theorem ⟨[wsAcme], [], 2⟩ hwf { name := "Acme" }
    ⟨"1", "t"⟩ ⟨"1", "o", "r", some "main"⟩).2.1⟩

/-! ### Store-update lemmas -/

theorem updateById_not_found (docs : List Doc) (i : Nat) (u : List (String × Value))
    (h : findById docs i = none) : updateById docs i u = docs := by
  induction docs with
  | nil => rfl
  | cons d0 docs ih =>
    have hall := List.find?_eq_none.mp h
    have h0 : ¬ getKey d0 "_id" = some (.objId i) := by
      simpa using hall d0 (List.mem_cons_self d0 docs)
    rw [updateById, if_neg h0,
      ih (List.find?_eq_none.mpr (fun x hx => hall x (List.mem_cons_of_mem d0 hx)))]

theorem findById_cons_of_pos (d0 : Doc) (docs : List Doc) (i : Nat)
    (h : getKey d0 "_id" = some (.objId i)) : findById (d0 :: docs) i = some d0 := by
  rw [findById, List.find?_cons_of_pos _ (by simp [h])]

theorem findById_cons_of_neg (d0 : Doc) (docs : List Doc) (i : Nat)
    (h : ¬ getKey d0 "_id" = some (.objId i)) : findById (d0 :: docs) i = findById docs i := by
  rw [findById, List.find?_cons_of_neg _ (by simp [h]), findById]

theorem findById_updateById (docs : List Doc) (i : Nat) (u : List (String × Value))
    (hu : ∀ p ∈ u, ¬ p.1 = "_id") (d : Doc) (h : findById docs i = some d) :
    findById (updateById docs i u) i = some (applySet d u) := by
  induction docs with
  | nil => cases h
  | cons d0 docs ih =>
    by_cases hid : getKey d0 "_id" = some (.objId i)
    · rw [findById_cons_of_pos d0 docs i hid] at h
      have hd : d = d0 := (Option.some.injEq _ _).mp h |>.symm
      subst hd
      rw [updateById, if_pos hid]
      exact findById_cons_of_pos _ _ _
        (by rw [getKey_applySet_not_mem _ _ _ hu]; exact hid)
    · rw [findById_cons_of_neg d0 docs i hid] at h
      rw [updateById, if_neg hid, findById_cons_of_neg _ _ _ hid]
      exact ih h

/-! ### Claim C4: connect-credential on a missing workspace -/

/-- C4 (amended): when the workspace id parses but no workspace has it,
`connectRepoCredential` does not fail `NotFound`: the store update is a
no-op and the endpoint returns a successful null body; when the workspace
exists, it sets the secret field on it and returns the serialized
workspace.  (The original "fails NotFound" is refuted by
`c4_counterexample`.) -/
theorem c4_theorem (st : Store) (gc : GitConnect) (i : Nat)
    (hto : to_object_id gc.workspace_id = .ok i) :
    (findById st.workspaces i = none →
      (github_connect st gc).1 = .ok none ∧ (github_connect st gc).2 = st) ∧
    (∀ d, findById st.workspaces i = some d →
      ∃ d', findById ((github_connect st gc).2.workspaces) i = some d' ∧
        d' = applySet d [("gh_access_token", .str gc.access_token)] ∧
        getKey d' "gh_access_token" = some (.str gc.access_token) ∧
        (github_connect st gc).1 = .ok (some (serialize d'))) := by
  constructor
  · intro hnone
    simp only [github_connect, hto]
    rw [updateById_not_found _ _ _ hnone]
    constructor
    · rw [hnone]
      rfl
    · rfl
  · intro d hd
    have hup := findById_updateById st.workspaces i
      [("gh_access_token", Value.str gc.access_token)]
      (by intro p hp; rw [List.mem_singleton.mp hp]; simp) d hd
    refine ⟨applySet d [("gh_access_token", .str gc.access_token)], ?_, rfl, ?_, ?_⟩
    · simpa only [github_connect, hto] using hup
    · exact getKey_applySet_mem _ _ _ _ (by simp) (List.mem_singleton_self _)
    · simp only [github_connect, hto, serializeOpt]
      rw [hup]
      rfl

/-- C4 (counterexample to the original claim): connecting a credential to
a workspace id that exists nowhere succeeds with a null body (HTTP 200)
and leaves the store unchanged — it does not fail `NotFound`. -/
theorem c4_counterexample :
    (github_connect ⟨[], [], 1⟩ ⟨"1", "tok"⟩).1 = .ok none ∧
    (github_connect ⟨[], [], 1⟩ ⟨"1", "tok"⟩).2 = ⟨[], [], 1⟩ := by decide

/-- C4 witness: the amended theorem applied to a concrete store where the
workspace exists. -/
theorem c4_witness :
    to_object_id "1" = .ok 1 ∧
    findById (⟨[wsAcme], [], 2⟩ : Store).workspaces 1 = some wsAcme ∧
    ∃ d', findById ((github_connect ⟨[wsAcme], [], 2⟩ ⟨"1", "tok"⟩).2.workspaces) 1 = some d' ∧
      d' = applySet wsAcme [("gh_access_token", .str "tok")] ∧
      getKey d' "gh_access_token" = some (.str "tok") ∧
      (github_connect ⟨[wsAcme], [], 2⟩ ⟨"1", "tok"⟩).1 = .ok (some (serialize d')) :=
  ⟨by decide, by decide,
    (c4_theorem ⟨[wsAcme], [], 2⟩ ⟨"1", "tok"⟩ 1 (by decide)).2 wsAcme (by decide)⟩

/-! ### Claim C6: lockPage -/

/-- C6 (amended): for an existing page, `lockPage` unconditionally
overwrites the whole `lock` field with the supplied structure (no merge,
no ownership check) and returns the updated page with success; but for a
missing page id the re-fetch fails `NotFound` (and a malformed id fails
`InvalidIdentifier`), so the endpoint is not failure-free.  (The original
"no failure outcome for every page id" is refuted by
`c6_counterexample`.) -/
theorem c6_theorem (st : Store) (pid : String) (payload : LockPayload) (i : Nat)
    (hto : to_object_id pid = .ok i) (d : Doc) (hf : findById st.pages i = some d) :
    ∃ d', findById ((lock_page st pid payload).2.pages) i = some d' ∧
      d' = applySet d [("lock", .lockObj payload.locked_by payload.is_locked)] ∧
      getKey d' "lock" = some (.lockObj payload.locked_by payload.is_locked) ∧
      (lock_page st pid payload).1 = .ok (serialize d') := by
  have hup := findById_updateById st.pages i
    [("lock", Value.lockObj payload.locked_by payload.is_locked)]
    (by intro p hp; rw [List.mem_singleton.mp hp]; simp) d hf
  refine ⟨applySet d [("lock", .lockObj payload.locked_by payload.is_locked)], ?_, rfl, ?_, ?_⟩
  · simpa only [lock_page, hto] using hup
  · exact getKey_applySet_mem _ _ _ _ (by simp) (List.mem_singleton_self _)
  · simp only [lock_page, hto, get_page]
    rw [hup]

/-- Fixture: a page document of workspace 1 with id 2 and content
`"hello"`. -/
def pgIntro : Doc :=
  Page.toDoc { title := "Intro", content := "hello", workspace_id := "1" } 2

/-- C6 (counterexample to the original claim): locking a page id that
exists nowhere fails with `404 Page not found` — `lockPage` does have a
failure outcome. -/
theorem c6_counterexample :
    (lock_page ⟨[wsAcme], [], 2⟩ "7" ⟨some "alice", true⟩).1 =
      .error (.httpError 404 "Page not found") := by decide

/-- C6 witness: the amended theorem applied to a concrete one-page store. -/
theorem c6_witness :
    to_object_id "2" = .ok 2 ∧
    findById (⟨[wsAcme], [pgIntro], 3⟩ : Store).pages 2 = some pgIntro ∧
    ∃ d', findById ((lock_page ⟨[wsAcme], [pgIntro], 3⟩ "2" ⟨some "alice", true⟩).2.pages) 2
        = some d' ∧
      d' = applySet pgIntro [("lock", .lockObj (some "alice") true)] ∧
      getKey d' "lock" = some (.lockObj (some "alice") true) ∧
      (lock_page ⟨[wsAcme], [pgIntro], 3⟩ "2" ⟨some "alice", true⟩).1 = .ok (serialize d') :=
  ⟨by decide, by decide,
    c6_theorem ⟨[wsAcme], [pgIntro], 3⟩ "2" ⟨some "alice", true⟩ 2 (by decide) pgIntro (by decide)⟩

/-! ### Claim C7: createPage with a bad workspace reference -/

/-- C7 (amended): when the `workspaceId` is well-formed but no workspace
has it, `createPage` fails `NotFound` and inserts nothing; when it is
malformed it fails `InvalidIdentifier` (400), not `NotFound` — and also
inserts nothing.  (The original "always fails NotFound" is refuted by
`c7_counterexample`.) -/
theorem c7_theorem (st : Store) (p : Page) :
    (∀ e, to_object_id p.workspace_id = .error e →
      (create_page st p).1 = .error e ∧ (create_page st p).2 = st) ∧
    (∀ i, to_object_id p.workspace_id = .ok i → findById st.workspaces i = none →
      (create_page st p).1 = .error (.httpError 404 "Workspace not found") ∧
      (create_page st p).2 = st) := by
  constructor
  · intro e hto
    constructor <;> simp [create_page, hto]
  · intro i hto hnone
    constructor <;> simp [create_page, hto, hnone]

/-- C7 (counterexample to the original claim): a malformed workspace id
references no existing workspace, yet `createPage` fails with
`400 Invalid id`, not `NotFound`; nothing is inserted. -/
theorem c7_counterexample :
    (create_page ⟨[wsAcme], [], 2⟩ { title := "T", workspace_id := "zzz" }).1 =
      .error (.httpError 400 "Invalid id") ∧
    (create_page ⟨[wsAcme], [], 2⟩ { title := "T", workspace_id := "zzz" }).2 =
      ⟨[wsAcme], [], 2⟩ := by decide

/-- C7 witness: the amended theorem applied to a well-formed but absent
workspace id. -/
theorem c7_witness :
    to_object_id "9" = .ok 9 ∧
    findById (⟨[wsAcme], [], 2⟩ : Store).workspaces 9 = none ∧
    (create_page ⟨[wsAcme], [], 2⟩ { title := "T", workspace_id := "9" }).1 =
      .error (.httpError 404 "Workspace not found") ∧
    (create_page ⟨[wsAcme], [], 2⟩ { title := "T", workspace_id := "9" }).2 =
      ⟨[wsAcme], [], 2⟩ :=
  ⟨by decide, by decide,
    (c7_theorem ⟨[wsAcme], [], 2⟩ { title := "T", workspace_id := "9" }).2 9
      (by decide) (by decide)⟩

/-! ### Claim C9: listPages -/

/-- C9 (amended): `listPages` returns at most 200 pages; for a supplied
NON-EMPTY `folderPath` it returns only the workspace's pages whose
`folder_path` equals it exactly; when `folderPath` is omitted — or
supplied as the empty string, which Python truthiness treats as absent —
it returns the workspace's pages regardless of folder.  (The original
"for every supplied folderPath" is refuted by `c9_counterexample`.) -/
theorem c9_theorem (st : Store) (wsid : String) (fp : Option String) :
    (list_pages st wsid fp).length ≤ 200 ∧
    (∀ f, fp = some f → ¬ f = "" →
      ∀ out ∈ list_pages st wsid fp, ∃ d, d ∈ st.pages ∧ out = serialize d ∧
        getKey d "workspace_id" = some (.str wsid) ∧
        getKey d "folder_path" = some (.str f)) ∧
    (list_pages st wsid none =
      ((st.pages.filter
        (fun d => decide (getKey d "workspace_id" = some (.str wsid)))).take 200).map
          serialize) ∧
    (list_pages st wsid (some "") = list_pages st wsid none) := by
  refine ⟨?_, ?_, ?_, ?_⟩
  · rw [list_pages, List.length_map, List.length_take]
    exact Nat.min_le_left _ _
  · intro f hfp hne out hout
    subst hfp
    have hie : f.isEmpty = false := by
      cases hb : f.isEmpty
      · rfl
      · exact absurd ((String.isEmpty_iff f).mp hb) hne
    rw [list_pages] at hout
    rcases List.mem_map.mp hout with ⟨d, hd, hds⟩
    have hdf := List.take_subset 200 _ hd
    have hmem := List.mem_filter.mp hdf
    refine ⟨d, hmem.1, hds.symm, ?_, ?_⟩
    · have := hmem.2
      rw [Bool.and_eq_true] at this
      exact of_decide_eq_true this.1
    · have := hmem.2
      rw [Bool.and_eq_true] at this
      have h2 := this.2
      change (if f.isEmpty = true then true
        else decide (getKey d "folder_path" = some (Value.str f))) = true at h2
      rw [hie] at h2
      simp only [Bool.false_eq_true, if_false] at h2
      exact of_decide_eq_true h2
  · simp [list_pages]
  · have he : "".isEmpty = true := rfl
    simp [list_pages, he]

/-- C9 (counterexample to the original claim): supplying
`folder_path = ""` does not filter at all: a page whose `folder_path` is
`"/"` (not `""`) is still returned. -/
theorem c9_counterexample :
    list_pages ⟨[wsAcme], [pgIntro], 3⟩ "1" (some "") = [serialize pgIntro] ∧
    ¬ getKey pgIntro "folder_path" = some (.str "") := by decide

/-- C9 witness: the amended theorem applied to a concrete store and the
non-empty folder path `"/"`. -/
theorem c9_witness :
    (list_pages ⟨[wsAcme], [pgIntro], 3⟩ "1" (some "/")).length ≤ 200 ∧
    (∀ out ∈ list_pages ⟨[wsAcme], [pgIntro], 3⟩ "1" (some "/"),
      ∃ d, d ∈ (⟨[wsAcme], [pgIntro], 3⟩ : Store).pages ∧ out = serialize d ∧
        getKey d "workspace_id" = some (.str "1") ∧
        getKey d "folder_path" = some (.str "/")) :=
  ⟨(c9_theorem ⟨[wsAcme], [pgIntro], 3⟩ "1" (some "/")).1,
   fun out hout => (c9_theorem ⟨[wsAcme], [pgIntro], 3⟩ "1" (some "/")).2.1 "/" rfl
     (by decide) out hout⟩

/-! ### Claims C8 and C10: updatePage -/

theorem dump_keys (p : PageUpdate) :
    ∀ q ∈ p.dump, q.1 = "title" ∨ q.1 = "content" ∨ q.1 = "folder_path" ∨
      q.1 = "tags" ∨ q.1 = "git_path" := by
  obtain ⟨t, c, f, ts, g⟩ := p
  cases t <;> cases c <;> cases f <;> cases ts <;> cases g <;>
    simp [PageUpdate.dump]

theorem dump_keys_nodup (p : PageUpdate) : (p.dump.map Prod.fst).Nodup := by
  obtain ⟨t, c, f, ts, g⟩ := p
  cases t <;> cases c <;> cases f <;> cases ts <;> cases g <;>
    simp [PageUpdate.dump, List.nodup_cons]

theorem dump_not_id (p : PageUpdate) : ∀ q ∈ p.dump, ¬ q.1 = "_id" := by
  intro q hq
  rcases dump_keys p q hq with h | h | h | h | h <;> rw [h] <;> simp

theorem dump_no_null (p : PageUpdate) : ∀ q ∈ p.dump, ¬ q.2 = Value.null := by
  obtain ⟨t, c, f, ts, g⟩ := p
  cases t <;> cases c <;> cases f <;> cases ts <;> cases g <;>
    simp [PageUpdate.dump]

theorem dump_git_path_none (p : PageUpdate) (h : p.git_path = none) :
    ∀ q ∈ p.dump, ¬ q.1 = "git_path" := by
  obtain ⟨t, c, f, ts, g⟩ := p
  simp only at h
  subst h
  cases t <;> cases c <;> cases f <;> cases ts <;>
    simp [PageUpdate.dump]

/-- C8: `updatePage` with an empty payload performs no store write and
returns the current record (`NotFound` when the page is absent); with a
non-empty payload it sets exactly the dumped fields on the matching page
and leaves every other field untouched, returning the refreshed record. -/
theorem c8_theorem (st : Store) (pid : String) (payload : PageUpdate) :
    (payload.dump = [] → update_page st pid payload = (get_page st pid, st)) ∧
    (∀ i, to_object_id pid = .ok i →
      (findById st.pages i = none →
        update_page st pid payload = (.error (.httpError 404 "Page not found"), st)) ∧
      (∀ d, findById st.pages i = some d → ¬ payload.dump = [] →
        ∃ d', findById ((update_page st pid payload).2.pages) i = some d' ∧
          (update_page st pid payload).1 = .ok (serialize d') ∧
          (∀ k v, (k, v) ∈ payload.dump → getKey d' k = some v) ∧
          (∀ k, (∀ v, ¬ (k, v) ∈ payload.dump) → getKey d' k = getKey d k))) := by
  refine ⟨?_, ?_⟩
  · intro hd
    simp [update_page, hd]
  · intro i hto
    constructor
    · intro hnone
      by_cases hd : payload.dump.isEmpty
      · simp only [update_page, if_pos hd, get_page, hto, hnone]
      · simp only [update_page, if_neg hd, hto]
        rw [updateById_not_found _ _ _ hnone]
        simp only [get_page, hto, hnone]
    · intro d hd hdne
      have hie : payload.dump.isEmpty = false := by
        rcases h : payload.dump with _ | ⟨q, u⟩
        · exact absurd h hdne
        · rfl
      have hup := findById_updateById st.pages i payload.dump (dump_not_id payload) d hd
      refine ⟨applySet d payload.dump, ?_, ?_, ?_, ?_⟩
      · simp only [update_page, hie, Bool.false_eq_true, if_false, hto]
        exact hup
      · simp only [update_page, hie, Bool.false_eq_true, if_false, hto, get_page]
        rw [hup]
      · intro k v hkv
        exact getKey_applySet_mem _ _ _ _ (dump_keys_nodup payload) hkv
      · intro k hk
        exact getKey_applySet_not_mem _ _ _ (by
          intro q hq hqk
          exact hk q.2 (by rw [← hqk]; exact hq))

/-- C8 witness: the theorem applied to a one-page store and the payload
`{title: "New"}` — the title is set, all other fields are untouched. -/
theorem c8_witness :
    to_object_id "2" = .ok 2 ∧
    findById (⟨[wsAcme], [pgIntro], 3⟩ : Store).pages 2 = some pgIntro ∧
    ¬ (PageUpdate.dump { title := some "New" } = []) ∧
    ∃ d', findById ((update_page ⟨[wsAcme], [pgIntro], 3⟩ "2"
        { title := some "New" }).2.pages) 2 = some d' ∧
      (update_page ⟨[wsAcme], [pgIntro], 3⟩ "2" { title := some "New" }).1 =
        .ok (serialize d') ∧
      (∀ k v, (k, v) ∈ PageUpdate.dump { title := some "New" } → getKey d' k = some v) ∧
      (∀ k, (∀ v, ¬ (k, v) ∈ PageUpdate.dump { title := some "New" }) →
        getKey d' k = getKey pgIntro k) :=
  ⟨by decide, by decide, by decide,
    ((c8_theorem ⟨[wsAcme], [pgIntro], 3⟩ "2" { title := some "New" }).2 2
      (by decide)).2 pgIntro (by decide) (by decide)⟩

/-- C10: a field parsed to `None` (an explicit JSON `null` and an omitted
field are indistinguishable after pydantic parsing) is dropped from the
update map, so `updatePage` never writes `null` into any field and a
payload without `git_path` leaves a page's `git_path` untouched. -/
theorem c10_theorem (st : Store) (pid : String) (payload : PageUpdate) (i : Nat) (d : Doc)
    (hto : to_object_id pid = .ok i) (hf : findById st.pages i = some d)
    (hgp : payload.git_path = none) :
    (∀ q ∈ payload.dump, ¬ q.2 = Value.null) ∧
    ∃ d', findById ((update_page st pid payload).2.pages) i = some d' ∧
      getKey d' "git_path" = getKey d "git_path" := by
  refine ⟨dump_no_null payload, ?_⟩
  by_cases hd : payload.dump.isEmpty
  · refine ⟨d, ?_, rfl⟩
    simp only [update_page, if_pos hd]
    exact hf
  · have hup := findById_updateById st.pages i payload.dump (dump_not_id payload) d hf
    refine ⟨applySet d payload.dump, ?_, ?_⟩
    · simp only [update_page, if_neg hd, hto]
      exact hup
    · exact getKey_applySet_not_mem _ _ _ (dump_git_path_none payload hgp)

/-- C10 witness: updating only `content` on a page whose `git_path` is
null leaves `git_path` exactly as it was, and the update map holds no
null. -/
theorem c10_witness :
    to_object_id "2" = .ok 2 ∧
    findById (⟨[wsAcme], [pgIntro], 3⟩ : Store).pages 2 = some pgIntro ∧
    PageUpdate.git_path { content := some "x" } = none ∧
    ((∀ q ∈ PageUpdate.dump { content := some "x" }, ¬ q.2 = Value.null) ∧
     ∃ d', findById ((update_page ⟨[wsAcme], [pgIntro], 3⟩ "2"
         { content := some "x" }).2.pages) 2 = some d' ∧
       getKey d' "git_path" = getKey pgIntro "git_path") :=
  ⟨by decide, by decide, rfl,
    c10_theorem ⟨[wsAcme], [pgIntro], 3⟩ "2" { content := some "x" } 2 pgIntro
      (by decide) (by decide) rfl⟩

/-! ### Claim C5: search -/

/-- The claim's matching predicate, written from the claim's words: a page
of the given workspace whose title, content, or one of whose tags contains
`q` as a case-insensitive substring (OR across the three fields). -/
def searchMatches (wsid q : String) (d : Doc) : Prop :=
  getKey d "workspace_id" = some (.str wsid) ∧
  ((∃ s, getKey d "title" = some (.str s) ∧ strContainsCI s q = true) ∨
   (∃ s, getKey d "content" = some (.str s) ∧ strContainsCI s q = true) ∨
   (∃ ts t, getKey d "tags" = some (.arr ts) ∧ t ∈ ts ∧ strContainsCI t q = true))

/-- A page document whose `title` and `content` are strings and whose
`tags` is an array — the shape of every document `createPage` writes. -/
def pageFieldsTyped (d : Doc) : Bool :=
  (match getKey d "title" with | some (.str _) => true | _ => false) &&
  (match getKey d "content" with | some (.str _) => true | _ => false) &&
  (match getKey d "tags" with | some (.arr _) => true | _ => false)

/-- C5: a malformed pattern fails `InvalidQuery` (400); a well-formed one
returns the filtered pages of the workspace, capped at 50 and serialized,
and on well-typed page documents the store's filter coincides exactly with
the claim's case-insensitive-substring predicate over title, content and
tags. -/
theorem c5_theorem (st : Store) (wsid q : String) :
    (patternMalformed q = true →
      search st wsid q = .error (.httpError 400 "Invalid query")) ∧
    (patternMalformed q = false →
      search st wsid q =
        .ok (((st.pages.filter (searchPred wsid q)).take 50).map serialize) ∧
      ∀ l, search st wsid q = .ok l → l.length ≤ 50) ∧
    (∀ d, pageFieldsTyped d = true →
      (searchPred wsid q d = true ↔ searchMatches wsid q d)) := by
  refine ⟨?_, ?_, ?_⟩
  · intro h
    simp [search, h]
  · intro h
    constructor
    · simp [search, h]
    · intro l hl
      simp only [search, h, Bool.false_eq_true, if_false, Except.ok.injEq] at hl
      subst hl
      rw [List.length_map, List.length_take]
      exact Nat.min_le_left _ _
  · intro d htyp
    rw [pageFieldsTyped] at htyp
    rw [Bool.and_eq_true, Bool.and_eq_true] at htyp
    obtain ⟨⟨ht1, ht2⟩, ht3⟩ := htyp
    rcases hTitle : getKey d "title" with _ | vt <;> rw [hTitle] at ht1 <;>
      try cases ht1
    rcases hContent : getKey d "content" with _ | vc <;> rw [hContent] at ht2 <;>
      try cases ht2
    rcases hTags : getKey d "tags" with _ | vg <;> rw [hTags] at ht3 <;>
      try cases ht3
    cases vt with
    | str t =>
      cases vc with
      | str c =>
        cases vg with
        | arr ts =>
          simp [searchPred, searchMatches, hTitle, hContent, hTags, regexMatchCI,
            List.any_eq_true, or_assoc]
        | null => cases ht3
        | str _ => cases ht3
        | bool _ => cases ht3
        | objId _ => cases ht3
        | lockObj _ _ => cases ht3
      | null => cases ht2
      | bool _ => cases ht2
      | objId _ => cases ht2
      | arr _ => cases ht2
      | lockObj _ _ => cases ht2
    | null => cases ht1
    | bool _ => cases ht1
    | objId _ => cases ht1
    | arr _ => cases ht1
    | lockObj _ _ => cases ht1

/-- C5 witness: the theorem applied to a concrete store, workspace and
query — `"ELL"` matches the page content `"hello"` case-insensitively. -/
theorem c5_witness :
    patternMalformed "ELL" = false ∧
    search ⟨[wsAcme], [pgIntro], 3⟩ "1" "ELL" =
      .ok ((((⟨[wsAcme], [pgIntro], 3⟩ : Store).pages.filter
        (searchPred "1" "ELL")).take 50).map serialize) ∧
    pageFieldsTyped pgIntro = true ∧
    (searchPred "1" "ELL" pgIntro = true ↔ searchMatches "1" "ELL" pgIntro) :=
  ⟨by decide, ((c5_theorem ⟨[wsAcme], [pgIntro], 3⟩ "1" "ELL").2.1 (by decide)).1,
   by decide, (c5_theorem ⟨[wsAcme], [pgIntro], 3⟩ "1" "ELL").2.2 pgIntro (by decide)⟩

/-! ### Claim C2: syncPageToRepo on remote failure -/

/-- The local preconditions of the sync: the page id parses and exists and
its workspace is configured (truthy token and repo name). -/
def syncLocalOk (st : Store) (payload : GitSyncPage) : Prop :=
  ∃ pid page wsid ws,
    to_object_id payload.page_id = .ok pid ∧
    findById st.pages pid = some page ∧
    to_object_id (getStrD page "workspace_id") = .ok wsid ∧
    findById st.workspaces wsid = some ws ∧
    truthy ((getKey ws "gh_access_token").getD .null) = true ∧
    truthy ((getKey ws "gh_repo_full_name").getD .null) = true

/-- C2 (amended): when the create-or-update PUT answers with a non-success
status (≥ 300), `syncPageToRepo` cannot succeed and leaves the store —
page and workspace alike — unchanged; if the local checks pass (so the PUT
outcome is what decides), the operation aborts with exactly the remote
status and body.  A non-success answer to the *preliminary GET* does not
abort (see `c2_counterexample`): any non-200 GET is merely treated as "the
file does not exist yet" and no sha is attached. -/
theorem c2_theorem (st : Store) (payload : GitSyncPage)
    (getResp : ContentsGetResp) (putResp : PutResp) (hput : putResp.status ≥ 300) :
    ((github_sync_page st payload getResp putResp).2.1 = st) ∧
    (∀ d, ¬ (github_sync_page st payload getResp putResp).1 = .ok d) ∧
    (syncLocalOk st payload →
      (github_sync_page st payload getResp putResp).1 =
        .error (.httpError putResp.status putResp.text)) := by
  rcases hto : to_object_id payload.page_id with e | pid
  · refine ⟨by simp [github_sync_page, hto], by simp [github_sync_page, hto], ?_⟩
    rintro ⟨pid, _, _, _, hto', _⟩
    rw [hto] at hto'
    cases hto'
  · rcases hpg : findById st.pages pid with _ | page
    · refine ⟨by simp [github_sync_page, hto, hpg], by simp [github_sync_page, hto, hpg], ?_⟩
      rintro ⟨pid', _, _, _, hto', hpg', _⟩
      rw [hto] at hto'
      cases hto'
      rw [hpg] at hpg'
      cases hpg'
    · rcases hwto : to_object_id (getStrD page "workspace_id") with e | wsid
      · refine ⟨by simp [github_sync_page, hto, hpg, hwto],
          by simp [github_sync_page, hto, hpg, hwto], ?_⟩
        rintro ⟨pid', page', _, _, hto', hpg', hwto', _⟩
        rw [hto] at hto'
        cases hto'
        rw [hpg] at hpg'
        cases hpg'
        rw [hwto] at hwto'
        cases hwto'
      · rcases hws : findById st.workspaces wsid with _ | ws
        · refine ⟨by simp [github_sync_page, hto, hpg, hwto, hws],
            by simp [github_sync_page, hto, hpg, hwto, hws], ?_⟩
          rintro ⟨pid', page', wsid', _, hto', hpg', hwto', hws', _⟩
          rw [hto] at hto'
          cases hto'
          rw [hpg] at hpg'
          cases hpg'
          rw [hwto] at hwto'
          cases hwto'
          rw [hws] at hws'
          cases hws'
        · by_cases hcfg : truthy ((getKey ws "gh_access_token").getD .null) = true ∧
              truthy ((getKey ws "gh_repo_full_name").getD .null) = true
          · have hred : (github_sync_page st payload getResp putResp) =
                (.error (.httpError putResp.status putResp.text), st,
                 some { message := syncMessage payload.commit_message
                        content := b64EncodeString (getStrD page "content")
                        branch := wsBranch ws
                        sha := match (if getResp.status = 200 then getResp.sha else none) with
                               | some s => if s.isEmpty then none else some s
                               | none => none }) := by
              simp only [github_sync_page, hto, hpg, hwto, hws]
              rw [if_neg (not_not_intro hcfg), if_pos hput]
            rw [hred]
            exact ⟨rfl, by simp, fun _ => rfl⟩
          · have hred : (github_sync_page st payload getResp putResp) =
                (.error (.httpError 400 "GitHub not configured for workspace"), st, none) := by
              simp only [github_sync_page, hto, hpg, hwto, hws]
              rw [if_pos hcfg]
            rw [hred]
            refine ⟨rfl, by simp, ?_⟩
            rintro ⟨pid', page', wsid', ws', hto', hpg', hwto', hws', htk, hrp⟩
            rw [hto] at hto'
            cases hto'
            rw [hpg] at hpg'
            cases hpg'
            rw [hwto] at hwto'
            cases hwto'
            rw [hws] at hws'
            cases hws'
            exact absurd ⟨htk, hrp⟩ hcfg

/-- Fixture: a workspace document with credential and repository
configured. -/
def wsConfigured : Doc :=
  [("_id", .objId 1), ("name", .str "Acme"), ("gh_access_token", .str "tok"),
   ("gh_repo_full_name", .str "o/r"), ("gh_default_branch", .str "main")]

/-- C2 (counterexample to the original claim): the preliminary GET answers
`500` — a non-success status from one of the remote HTTP calls the sync
issues — yet the operation does not abort: the PUT proceeds, the sync
succeeds, and the page's `git_path` is durably changed. -/
theorem c2_counterexample :
    (github_sync_page ⟨[wsConfigured], [pgIntro], 3⟩ ⟨"2", "docs/a.md", none⟩
        ⟨500, "remote exploded", none, none, none⟩ ⟨201, "created"⟩).1 =
      .ok (serialize (applySet pgIntro [("git_path", .str "docs/a.md")])) ∧
    ¬ (github_sync_page ⟨[wsConfigured], [pgIntro], 3⟩ ⟨"2", "docs/a.md", none⟩
        ⟨500, "remote exploded", none, none, none⟩ ⟨201, "created"⟩).2.1 =
      ⟨[wsConfigured], [pgIntro], 3⟩ := by
  constructor <;> decide

/-- C2 witness: the amended theorem applied to a concrete configured store
and a failing PUT. -/
theorem c2_witness :
    (422 ≥ 300) ∧
    ((github_sync_page ⟨[wsConfigured], [pgIntro], 3⟩ ⟨"2", "docs/a.md", none⟩
        ⟨200, "", some "abc", none, none⟩ ⟨422, "Unprocessable"⟩).2.1 =
      ⟨[wsConfigured], [pgIntro], 3⟩) ∧
    (syncLocalOk ⟨[wsConfigured], [pgIntro], 3⟩ ⟨"2", "docs/a.md", none⟩ →
      (github_sync_page ⟨[wsConfigured], [pgIntro], 3⟩ ⟨"2", "docs/a.md", none⟩
          ⟨200, "", some "abc", none, none⟩ ⟨422, "Unprocessable"⟩).1 =
        .error (.httpError 422 "Unprocessable")) :=
  ⟨by decide,
   (c2_theorem ⟨[wsConfigured], [pgIntro], 3⟩ ⟨"2", "docs/a.md", none⟩
     ⟨200, "", some "abc", none, none⟩ ⟨422, "Unprocessable"⟩ (by decide)).1,
   (c2_theorem ⟨[wsConfigured], [pgIntro], 3⟩ ⟨"2", "docs/a.md", none⟩
     ⟨200, "", some "abc", none, none⟩ ⟨422, "Unprocessable"⟩ (by decide)).2.2⟩

/-! ### Claim C3: sync followed by pull preserves content -/

/-- Fixture: a configured workspace with symbolic credential, repository
and branch. -/
def wsParam (tok repo branch : String) : Doc :=
  [("_id", .objId 1), ("name", .str "Acme"), ("gh_access_token", .str tok),
   ("gh_repo_full_name", .str repo), ("gh_default_branch", .str branch)]

/-- Fixture: a page of workspace 1 with symbolic title, content and
`git_path` value. -/
def pgParam (title content : String) (gp : Value) : Doc :=
  [("_id", .objId 2), ("title", .str title), ("content", .str content),
   ("folder_path", .str "/"), ("tags", .arr []), ("workspace_id", .str "1"),
   ("git_path", gp)]

/-- Fixture: the same page after a successful sync to `path`. -/
def pgSynced (title content path : String) : Doc :=
  [("_id", .objId 2), ("title", .str title), ("content", .str content),
   ("folder_path", .str "/"), ("tags", .arr []), ("workspace_id", .str "1"),
   ("git_path", .str path)]

theorem truthy_str_of_ne (s : String) (h : ¬ s = "") : truthy (.str s) = true := by
  rw [truthy]
  cases hb : s.isEmpty
  · rfl
  · exact absurd ((String.isEmpty_iff s).mp hb) h

/-- Full evaluation of a successful sync on the one-workspace, one-page
store: the page's `git_path` is set and the issued PUT body carries the
base64 of the page content. -/
theorem sync_eval (tok repo branch title content path : String) (gp : Value)
    (msg : Option String) (getResp : ContentsGetResp) (putResp : PutResp)
    (htok : truthy (Value.str tok) = true) (hrepo : truthy (Value.str repo) = true)
    (hput : ¬ putResp.status ≥ 300) :
    github_sync_page ⟨[wsParam tok repo branch], [pgParam title content gp], 3⟩
        ⟨"2", path, msg⟩ getResp putResp =
      (.ok (serialize (pgSynced title content path)),
       ⟨[wsParam tok repo branch], [pgSynced title content path], 3⟩,
       some { message := syncMessage msg
              content := b64EncodeString content
              branch := wsBranch (wsParam tok repo branch)
              sha := match (if getResp.status = 200 then getResp.sha else none) with
                     | some s => if s.isEmpty then none else some s
                     | none => none }) := by
  simp only [github_sync_page,
    show to_object_id "2" = Except.ok 2 from rfl,
    show findById [pgParam title content gp] 2 = some (pgParam title content gp) from rfl,
    show getStrD (pgParam title content gp) "workspace_id" = "1" from rfl,
    show to_object_id "1" = Except.ok 1 from rfl,
    show findById [wsParam tok repo branch] 1 = some (wsParam tok repo branch) from rfl,
    show (getKey (wsParam tok repo branch) "gh_access_token").getD .null = Value.str tok
      from rfl,
    show (getKey (wsParam tok repo branch) "gh_repo_full_name").getD .null = Value.str repo
      from rfl]
  rw [if_neg (not_not_intro ⟨htok, hrepo⟩), if_neg hput]
  rfl

/-- Full evaluation of a pull whose remote faithfully returns the stored
base64 content (non-empty case): the page's `content` is overwritten with
the decoded — hence original — text. -/
theorem pull_eval (tok repo branch title content path : String)
    (htok : truthy (Value.str tok) = true) (hrepo : truthy (Value.str repo) = true)
    (hpath : truthy (Value.str path) = true)
    (hcb : truthy (optStr (some (b64EncodeString content))) = true) :
    ∃ d, findById ((github_pull_page
        ⟨[wsParam tok repo branch], [pgSynced title content path], 3⟩ ⟨"2"⟩
        ⟨200, "", some "sha", some "base64", some (b64EncodeString content)⟩).2.pages) 2 =
          some d ∧
      getKey d "content" = some (.str content) := by
  simp only [github_pull_page,
    show to_object_id "2" = Except.ok 2 from rfl,
    show findById [pgSynced title content path] 2 = some (pgSynced title content path)
      from rfl,
    show (getKey (pgSynced title content path) "git_path").getD .null = Value.str path
      from rfl,
    show getStrD (pgSynced title content path) "workspace_id" = "1" from rfl,
    show to_object_id "1" = Except.ok 1 from rfl,
    show findById [wsParam tok repo branch] 1 = some (wsParam tok repo branch) from rfl,
    show (getKey (wsParam tok repo branch) "gh_access_token").getD .null = Value.str tok
      from rfl,
    show (getKey (wsParam tok repo branch) "gh_repo_full_name").getD .null = Value.str repo
      from rfl]
  rw [if_neg (not_not_intro hpath), if_neg (not_not_intro ⟨htok, hrepo⟩),
    if_neg (show ¬ ((200 : Nat) ≥ 300) by omega), if_pos ⟨trivial, hcb⟩,
    show (some (b64EncodeString content)).getD "" = b64EncodeString content from rfl,
    b64DecodeString_encodeString content]
  exact ⟨applySet (pgSynced title content path) [("content", .str content)], rfl, rfl⟩

/-- Full evaluation of a pull whose remote returns the stored base64 of
the empty content: the falsy `content` field means nothing is pulled and
the page — whose content is already empty — is left untouched. -/
theorem pull_eval_empty (tok repo branch title path : String)
    (htok : truthy (Value.str tok) = true) (hrepo : truthy (Value.str repo) = true)
    (hpath : truthy (Value.str path) = true) :
    ∃ d, findById ((github_pull_page
        ⟨[wsParam tok repo branch], [pgSynced title "" path], 3⟩ ⟨"2"⟩
        ⟨200, "", some "sha", some "base64", some (b64EncodeString "")⟩).2.pages) 2 =
          some d ∧
      getKey d "content" = some (.str "") := by
  simp only [github_pull_page,
    show to_object_id "2" = Except.ok 2 from rfl,
    show findById [pgSynced title "" path] 2 = some (pgSynced title "" path) from rfl,
    show (getKey (pgSynced title "" path) "git_path").getD .null = Value.str path from rfl,
    show getStrD (pgSynced title "" path) "workspace_id" = "1" from rfl,
    show to_object_id "1" = Except.ok 1 from rfl,
    show findById [wsParam tok repo branch] 1 = some (wsParam tok repo branch) from rfl,
    show (getKey (wsParam tok repo branch) "gh_access_token").getD .null = Value.str tok
      from rfl,
    show (getKey (wsParam tok repo branch) "gh_repo_full_name").getD .null = Value.str repo
      from rfl]
  rw [if_neg (not_not_intro hpath), if_neg (not_not_intro ⟨htok, hrepo⟩),
    if_neg (show ¬ ((200 : Nat) ≥ 300) by omega),
    if_neg (show ¬ (True ∧ truthy (optStr (some (b64EncodeString ""))) = true)
      from fun h => absurd h.2 (by decide))]
  exact ⟨pgSynced title "" path, rfl, rfl⟩

/-- C3: on a page whose workspace is RepoSelected (non-empty credential
and repository), `syncPageToRepo` to a non-empty path followed immediately
by `pullPageFromRepo`, with the remote faithfully returning the stored
base64 content with encoding "base64", leaves the page's `content` field
unchanged. -/
theorem c3_theorem (tok repo branch title content path : String) (gp : Value)
    (msg : Option String) (getResp : ContentsGetResp) (putResp : PutResp)
    (htok : ¬ tok = "") (hrepo : ¬ repo = "") (hpath : ¬ path = "")
    (hput : ¬ putResp.status ≥ 300) :
    ∃ body,
      (github_sync_page ⟨[wsParam tok repo branch], [pgParam title content gp], 3⟩
        ⟨"2", path, msg⟩ getResp putResp).2.2 = some body ∧
      ∃ d, findById ((github_pull_page
          (github_sync_page ⟨[wsParam tok repo branch], [pgParam title content gp], 3⟩
            ⟨"2", path, msg⟩ getResp putResp).2.1 ⟨"2"⟩
          ⟨200, "", some "sha", some "base64", some body.content⟩).2.pages) 2 = some d ∧
        getKey d "content" = some (.str content) := by
  have htokT := truthy_str_of_ne tok htok
  have hrepoT := truthy_str_of_ne repo hrepo
  have hpathT := truthy_str_of_ne path hpath
  rw [sync_eval tok repo branch title content path gp msg getResp putResp htokT hrepoT hput]
  refine ⟨_, rfl, ?_⟩
  by_cases hc : content = ""
  · subst hc
    exact pull_eval_empty tok repo branch title path htokT hrepoT hpathT
  · refine pull_eval tok repo branch title content path htokT hrepoT hpathT ?_
    have hne : ¬ b64EncodeString content = "" := by
      intro he
      have := b64DecodeString_encodeString content
      rw [he] at this
      have hz : b64DecodeString "" = some "" := rfl
      rw [hz] at this
      exact hc (by injection this with h; exact h.symm)
    exact truthy_str_of_ne _ hne

/-- C3 witness: the round trip on a concrete page with content
`"hello"`. -/
theorem c3_witness :
    ∃ body,
      (github_sync_page ⟨[wsParam "tok" "o/r" "main"], [pgParam "Intro" "hello" .null], 3⟩
        ⟨"2", "docs/a.md", none⟩ ⟨404, "nf", none, none, none⟩ ⟨201, "created"⟩).2.2 =
          some body ∧
      ∃ d, findById ((github_pull_page
          (github_sync_page ⟨[wsParam "tok" "o/r" "main"], [pgParam "Intro" "hello" .null], 3⟩
            ⟨"2", "docs/a.md", none⟩ ⟨404, "nf", none, none, none⟩ ⟨201, "created"⟩).2.1 ⟨"2"⟩
          ⟨200, "", some "sha", some "base64", some body.content⟩).2.pages) 2 = some d ∧
        getKey d "content" = some (.str "hello") :=
  c3_theorem "tok" "o/r" "main" "Intro" "hello" "docs/a.md" .null none
    ⟨404, "nf", none, none, none⟩ ⟨201, "created"⟩
    (by decide) (by decide) (by decide) (by decide)

end DocsGit
